import Mathlib

/-!
Shallow embedding of hack/run_test_job_balance.py, the CI job-splitting
helper of the envd repository.  External effects (git, date, the
filesystem glob, the environment and the ginkgo child process) are
modelled as explicit parameters; each definition mirrors one statement or
expression of the Python source, cited by line number.
-/

namespace Envd

/-- Events a run of the script can emit, in order of occurrence: spawning
a child process with a command line, failing argument validation with a
message, raising the runtime error for a failed child process. -/
inductive Ev where
  | subproc (cmd : String)
  | argError (msg : String)
  | runError (msg : String)
deriving DecidableEq

def TEST_NAME_SYMBOL : String := "It"

def DYNAMIC_NODE_SYMBOL : String := "undefined"

def EXTRACT_GLOB_PATH : String := "e2e/**/*.go"

def EXCLUDE_GLOB_PATH : String := "e2e/*/docs/*.go"

def ROOT : String := "github.com/tensorchord/envd"

/-- Command line of the check_output call computing VERSION, lines 35-43
(the source wraps v[0-9]* in shell quotes, dropped here). -/
def VERSION_CMD : String := "git describe --match v[0-9]* --always --tags --abbrev=0"

/-- Command line of the check_output call computing BUILD_DATE, lines 44-52. -/
def BUILD_DATE_CMD : String := "date -u +%Y-%m-%dT%H:%M:%SZ"

/-- Command line of the check_output call computing GIT_COMMIT, lines 53-61. -/
def GIT_COMMIT_CMD : String := "git rev-parse HEAD"

/-- Command line of the check_output call computing GIT_TREE_STATE, lines 62-70:
the source runs git rev-parse HEAD here as well. -/
def GIT_TREE_STATE_CMD : String := "git rev-parse HEAD"

/-- Command line of the check_output call computing GIT_TAG, lines 71-78. -/
def GIT_TAG_CMD : String := "git describe --tags --abbrev=0"

/-- VERSION, lines 35-43: check_output output, decoded, .strip().rstrip().
The parameter ex maps a command line to the output the shell produces. -/
def VERSION (ex : String → String) : String := (ex VERSION_CMD).trim.trimRight

/-- BUILD_DATE, lines 44-52. -/
def BUILD_DATE (ex : String → String) : String := (ex BUILD_DATE_CMD).trim.trimRight

/-- GIT_COMMIT, lines 53-61. -/
def GIT_COMMIT (ex : String → String) : String := (ex GIT_COMMIT_CMD).trim.trimRight

/-- GIT_TREE_STATE, lines 62-70. -/
def GIT_TREE_STATE (ex : String → String) : String := (ex GIT_TREE_STATE_CMD).trim.trimRight

/-- GIT_TAG, lines 71-78. -/
def GIT_TAG (ex : String → String) : String := (ex GIT_TAG_CMD).trim.trimRight

/-- The five check_output subprocesses that run at module import time, in
source order (lines 35-78), before main is ever entered. -/
def moduleInitEvents : List Ev :=
  [Ev.subproc VERSION_CMD, Ev.subproc BUILD_DATE_CMD, Ev.subproc GIT_COMMIT_CMD,
   Ev.subproc GIT_TREE_STATE_CMD, Ev.subproc GIT_TAG_CMD]

/-- startsWithC s p: the char list p is a leading segment of s. -/
def startsWithC : List Char → List Char → Bool
  | _, [] => true
  | [], _ :: _ => false
  | a :: s, b :: p => a == b && startsWithC s p

/-- endsWithS s suffix: the string s ends with the string suffix, checked
on the underlying char lists (the semantics of Python str.endswith). -/
def endsWithS (s suffix : String) : Bool :=
  startsWithC s.data.reverse suffix.data.reverse

/-- extract_files, lines 81-94: glob the inclusion pattern, subtract the
files matching the exclusion pattern (a Python set difference, hence the
dedup), then drop files ending in suite_test.go and e2e_helper.go.  The
filesystem is the list fsFiles; the two glob calls are modelled as the
filters mx (inclusion pattern) and me (exclusion pattern) over it. -/
def extract_files (fsFiles : List String) (mx me : String → Bool) : List String :=
  let test_files :=
    ((fsFiles.filter mx).filter (fun f => !((fsFiles.filter me).contains f))).dedup
  let test_files := test_files.filter (fun file => !(endsWithS file "suite_test.go"))
  let test_files := test_files.filter (fun file => !(endsWithS file "e2e_helper.go"))
  test_files

/-- The shard selection of run_test, line 118: the files whose position i
in the list satisfies i % ci_total == ci_index.  Python % on ints agrees
with Int.emod whenever the modulus is positive, which validation
guarantees on every path that reaches this line. -/
def select_shard (files : List String) (ci_index ci_total : Int) : List String :=
  ((List.range files.length).filter (fun i => ((i : Nat) : Int) % ci_total == ci_index)).filterMap
    (fun i : Nat => files[i]?)

/-- desc_regex, line 122: one focus-file flag per selected file, each
value wrapped in double quotes and followed by a space. -/
def desc_regex (desc_run : List String) : String :=
  String.join (desc_run.map (fun decs => "--focus-file \"" ++ decs ++ "\" "))

/-- The five module-level metadata strings, packaged for the command. -/
structure BuildMeta where
  version : String
  build_date : String
  git_commit : String
  git_tree_state : String
  git_tag : String

/-- The metadata the module computes at import time from the shell. -/
def module_meta (ex : String → String) : BuildMeta :=
  ⟨VERSION ex, BUILD_DATE ex, GIT_COMMIT ex, GIT_TREE_STATE ex, GIT_TAG ex⟩

/-- The ginkgo command line of run_test, lines 123-130, with the f-string
line continuations kept as their literal runs of spaces (one space before
each continuation, twelve spaces of indentation after it). -/
def build_cmd (m : BuildMeta) (mode : String) (ci_index : Int) (descRegex : String) : String :=
  "ginkgo run -r --ldflags \"-s -w -X " ++ ROOT ++ "/pkg/version.version=" ++ m.version ++
  "             -X " ++ ROOT ++ "/pkg/version.buildDate=" ++ m.build_date ++
  "             -X " ++ ROOT ++ "/pkg/version.gitCommit=" ++ m.git_commit ++
  "             -X " ++ ROOT ++ "/pkg/version.gitTreeState=" ++ m.git_tree_state ++
  "             -X " ++ ROOT ++ "/pkg/version.gitTag=" ++ m.git_tag ++
  "             -X " ++ ROOT ++ "/pkg/version.developmentFlag=true" ++
  "             -X " ++ ROOT ++ "/pkg/version.ghaBuildMode=" ++ mode ++ "\"" ++
  "             --cover --covermode atomic --coverprofile e2e-" ++ toString ci_index ++
  "-coverage.out             --coverpkg " ++ ROOT ++ "/pkg/... " ++ descRegex ++
  " -v --timeout 15m --race ./e2e/..."

/-- The environment handed to the child process, lines 132-134: a copy of
the parent environment with GIT_LATEST_TAG and ENVD_ANALYTICS set. -/
def child_env (parent : String → Option String) (gitTag : String) : String → Option String :=
  fun k =>
    if k = "ENVD_ANALYTICS" then some "false"
    else if k = "GIT_LATEST_TAG" then some gitTag
    else parent k

/-- The RuntimeError message of run_test, line 138. -/
def ginkgo_fail_msg (rc : Int) : String :=
  "ginkgo test failed: return code " ++ toString rc

/-- Events of run_test, lines 97-138: one child process running the
constructed command, then the RuntimeError when its exit code rc is not
zero. -/
def run_test_events (files : List String) (ci_index ci_total : Int) (mode : String)
    (m : BuildMeta) (rc : Int) : List Ev :=
  let desc_run := select_shard files ci_index ci_total
  let cmd := build_cmd m mode ci_index (desc_regex desc_run)
  Ev.subproc cmd :: (if rc ≠ 0 then [Ev.runError (ginkgo_fail_msg rc)] else [])

/-- The validation test of main, line 158: ci_index >= ci_total or
ci_index < 0 or ci_total <= 0. -/
def args_rejected (ci_index ci_total : Int) : Bool :=
  decide (ci_index ≥ ci_total) || decide (ci_index < 0) || decide (ci_total ≤ 0)

/-- The bad-argument message of main, lines 159-161. -/
def bad_arg_msg (ci_index ci_total : Int) : String :=
  "bad argument ci_index " ++ toString ci_index ++ " and ci_total " ++ toString ci_total ++
  ", should be 0 <= ci_index < ci_total"

/-- The sorted file list main hands to run_test, lines 162-163. -/
def main_test_files (fsFiles : List String) (mx me : String → Bool) : List String :=
  List.insertionSort (fun a b : String => a ≤ b) (extract_files fsFiles mx me)

/-- Events of one whole run of the script: the five import-time
subprocesses, then either the validation error (line 158) or the events
of run_test on the sorted file list.  The run mode is safe when
export_cache is set, import otherwise (line 157). -/
def main_events (ex : String → String) (fsFiles : List String) (mx me : String → Bool)
    (ci_index ci_total : Int) (export_cache : Bool) (rc : Int) : List Ev :=
  moduleInitEvents ++
    (if args_rejected ci_index ci_total then
      [Ev.argError (bad_arg_msg ci_index ci_total)]
    else
      run_test_events (main_test_files fsFiles mx me) ci_index ci_total
        (if export_cache then "safe" else "import") (module_meta ex) rc)

/-- Tests an event for being a child-process spawn. -/
def isSubprocEv : Ev → Bool
  | Ev.subproc _ => true
  | _ => false

/-- Tests an event for being the argument-validation failure. -/
def isArgErrorEv : Ev → Bool
  | Ev.argError _ => true
  | _ => false

/-- Tests an event for being an error of either kind. -/
def isErrorEv : Ev → Bool
  | Ev.subproc _ => false
  | _ => true

/-- A trace makes the tool exit nonzero exactly when an error event
occurs in it (an uncaught Python exception exits nonzero). -/
def trace_fails (tr : List Ev) : Bool := tr.any isErrorEv

/-- The property C2 claims of a trace: every event before the first
argument-validation error is not a child-process spawn. -/
def no_subproc_before_argError (tr : List Ev) : Bool :=
  (tr.takeWhile (fun e => !(isArgErrorEv e))).all (fun e => !(isSubprocEv e))

/-- containsC p s: the char list p occurs contiguously inside s. -/
def containsC (p : List Char) : List Char → Bool
  | [] => startsWithC [] p
  | a :: s => startsWithC (a :: s) p || containsC p s

/-- strContains s pat: pat occurs as a contiguous substring of s. -/
def strContains (s pat : String) : Bool := containsC pat.data s.data

/-- Membership in a shard, unfolded: x is in the shard exactly when some
position i of the file list holds x and has residue ci_index mod ci_total. -/
lemma mem_select_shard {files : List String} {ci ct : Int} {x : String} :
    x ∈ select_shard files ci ct ↔
      ∃ i : Nat, ∃ hi : i < files.length, (i : Int) % ct = ci ∧ files[i] = x := by
  constructor
  · intro h
    rw [select_shard, List.mem_filterMap] at h
    obtain ⟨i, hmem, hget⟩ := h
    rw [List.mem_filter, List.mem_range] at hmem
    obtain ⟨hi, hcond⟩ := hmem
    rw [List.getElem?_eq_some] at hget
    obtain ⟨hlt, hx⟩ := hget
    exact ⟨i, hlt, by simpa using hcond, hx⟩
  · rintro ⟨i, hi, hcond, hx⟩
    rw [select_shard, List.mem_filterMap]
    refine ⟨i, ?_, ?_⟩
    · rw [List.mem_filter, List.mem_range]
      exact ⟨hi, by simpa using hcond⟩
    · rw [List.getElem?_eq_some]
      exact ⟨hi, hx⟩

/-- C1: for a deduplicated file list and ci_total > 0, every file of every
shard is a file of the list, and every file of the list lies in exactly one
shard select_shard files j ci_total with 0 <= j < ci_total: the shards are
pairwise disjoint and their union is the whole file list. -/
theorem select_shard_partition (files : List String) (hnd : files.Nodup)
    (ci_total : Int) (ht : 0 < ci_total) :
    (∀ j : Int, ∀ x ∈ select_shard files j ci_total, x ∈ files) ∧
      (∀ x ∈ files, ∃! j : Int, (0 ≤ j ∧ j < ci_total) ∧ x ∈ select_shard files j ci_total) := by
  constructor
  · intro j x hx
    obtain ⟨i, hi, -, hxe⟩ := mem_select_shard.mp hx
    exact hxe ▸ List.getElem_mem hi
  · intro x hx
    obtain ⟨i, hi, hxe⟩ := List.mem_iff_getElem.mp hx
    refine ⟨(i : Int) % ci_total,
      ⟨⟨Int.emod_nonneg _ (by omega), Int.emod_lt_of_pos _ ht⟩, ?_⟩, ?_⟩
    · exact mem_select_shard.mpr ⟨i, hi, rfl, hxe⟩
    · rintro j ⟨-, hj⟩
      obtain ⟨i2, hi2, hcond2, hx2⟩ := mem_select_shard.mp hj
      have h12 : files[i2] = files[i] := by rw [hx2, hxe]
      have hii : i2 = i := (List.Nodup.getElem_inj_iff hnd).mp h12
      rw [← hcond2, hii]

/-- Witness for C1 at the file list a, b, c with ci_total 2. -/
theorem select_shard_partition_witness :
    (["a", "b", "c"] : List String).Nodup ∧ (0 : Int) < 2 ∧
      ((∀ j : Int, ∀ x ∈ select_shard ["a", "b", "c"] j 2, x ∈ (["a", "b", "c"] : List String)) ∧
        (∀ x ∈ (["a", "b", "c"] : List String),
          ∃! j : Int, (0 ≤ j ∧ j < 2) ∧ x ∈ select_shard ["a", "b", "c"] j 2)) :=
  ⟨by decide, by decide, select_shard_partition ["a", "b", "c"] (by decide) 2 (by decide)⟩

/-- C4: on the sorted file list a.go b.go c.go d.go e.go with ci_total 2,
job 0 receives exactly a.go, c.go, e.go and job 1 receives exactly b.go,
d.go. -/
theorem select_shard_scenario :
    select_shard ["a.go", "b.go", "c.go", "d.go", "e.go"] 0 2 = ["a.go", "c.go", "e.go"] ∧
      select_shard ["a.go", "b.go", "c.go", "d.go", "e.go"] 1 2 = ["b.go", "d.go"] := by
  exact ⟨by decide, by decide⟩

/-- C2 fails on the code: at the invalid arguments ci_index 0, ci_total 0
(with an empty filesystem and a trivial shell), the run spawns the five
module-level metadata subprocesses before the validation error, so a child
process is spawned prior to the validation check rejecting the arguments. -/
theorem no_subproc_before_validation_cex :
    args_rejected 0 0 = true ∧
      no_subproc_before_argError
        (main_events (fun _ => "") [] (fun _ => false) (fun _ => false) 0 0 false 0) = false :=
  ⟨by decide, by decide⟩

/-- C2 amended: for every invalid argument pair the run rejects the
arguments before any further subprocess: its events are exactly the five
module-import metadata subprocesses (which do run before validation)
followed by the validation error, and in particular the ginkgo runner is
never spawned. -/
theorem invalid_args_reject_before_runner (ex : String → String) (fsFiles : List String)
    (mx me : String → Bool) (ci_index ci_total : Int) (ec : Bool) (rc : Int)
    (h : args_rejected ci_index ci_total = true) :
    main_events ex fsFiles mx me ci_index ci_total ec rc =
      moduleInitEvents ++ [Ev.argError (bad_arg_msg ci_index ci_total)] := by
  simp [main_events, h]

/-- Witness for the amended C2 at ci_index 0, ci_total 0. -/
theorem invalid_args_reject_before_runner_witness :
    args_rejected 0 0 = true ∧
      main_events (fun _ => "") [] (fun _ => false) (fun _ => false) 0 0 false 0 =
        moduleInitEvents ++ [Ev.argError (bad_arg_msg 0 0)] :=
  ⟨by decide,
    invalid_args_reject_before_runner (fun _ => "") [] (fun _ => false) (fun _ => false)
      0 0 false 0 (by decide)⟩

/-- C3: the validation of main rejects exactly the argument pairs that
violate 0 <= ci_index < ci_total with ci_total > 0; a rejected pair ends
the run in the descriptive validation error without reaching run_test, and
an accepted pair proceeds into run_test and its shard selection with no
validation error. -/
theorem args_rejected_iff (ci_index ci_total : Int) :
    (args_rejected ci_index ci_total = true ↔
      ¬(0 ≤ ci_index ∧ ci_index < ci_total ∧ 0 < ci_total)) ∧
    ∀ ex : String → String, ∀ fsFiles : List String, ∀ mx me : String → Bool,
      ∀ ec : Bool, ∀ rc : Int,
      (args_rejected ci_index ci_total = true →
        main_events ex fsFiles mx me ci_index ci_total ec rc =
          moduleInitEvents ++ [Ev.argError (bad_arg_msg ci_index ci_total)]) ∧
      (args_rejected ci_index ci_total = false →
        main_events ex fsFiles mx me ci_index ci_total ec rc =
          moduleInitEvents ++
            run_test_events (main_test_files fsFiles mx me) ci_index ci_total
              (if ec then "safe" else "import") (module_meta ex) rc) := by
  constructor
  · rw [args_rejected]
    simp only [Bool.or_eq_true, decide_eq_true_eq]
    omega
  · intro ex fsFiles mx me ec rc
    constructor
    · intro h
      simp [main_events, h]
    · intro h
      simp [main_events, h]

/-- Witness for C3 at ci_index 0, ci_total 0. -/
theorem args_rejected_iff_witness :
    ¬(0 ≤ (0 : Int) ∧ (0 : Int) < 0 ∧ (0 : Int) < 0) ∧
      main_events (fun _ => "") [] (fun _ => false) (fun _ => false) 0 0 false 0 =
        moduleInitEvents ++ [Ev.argError (bad_arg_msg 0 0)] :=
  ⟨((args_rejected_iff 0 0).1).mp (by decide),
    (((args_rejected_iff 0 0).2 (fun _ => "") [] (fun _ => false) (fun _ => false) false 0).1)
      (by decide)⟩

/-- C6: if the ginkgo child exits with a nonzero code rc, run_test raises
a RuntimeError whose message contains the decimal rendering of rc, and the
run fails (nonzero tool exit); if the child exits with 0, no error event
occurs and the run does not fail. -/
theorem ginkgo_exit_code (files : List String) (ci_index ci_total : Int) (mode : String)
    (m : BuildMeta) (rc : Int) :
    (rc ≠ 0 → ∃ msg : String,
      Ev.runError msg ∈ run_test_events files ci_index ci_total mode m rc ∧
      (∃ pre post : String, msg = pre ++ toString rc ++ post) ∧
      trace_fails (run_test_events files ci_index ci_total mode m rc) = true) ∧
    (rc = 0 →
      (∀ msg : String, Ev.runError msg ∉ run_test_events files ci_index ci_total mode m rc) ∧
      trace_fails (run_test_events files ci_index ci_total mode m rc) = false) := by
  constructor
  · intro h
    refine ⟨ginkgo_fail_msg rc, ?_,
      ⟨"ginkgo test failed: return code ", "", by simp [ginkgo_fail_msg]⟩, ?_⟩
    · simp [run_test_events, h]
    · simp [run_test_events, h, trace_fails, isErrorEv]
  · intro h
    subst h
    constructor
    · intro msg hmem
      simp [run_test_events] at hmem
    · simp [run_test_events, trace_fails, isErrorEv]

/-- Witness for C6 at exit code 1: the message contains the digit 1. -/
theorem ginkgo_exit_code_witness :
    ∃ msg : String,
      Ev.runError msg ∈ run_test_events [] 0 1 "import" ⟨"v", "d", "c", "c", "t"⟩ 1 ∧
      (∃ pre post : String, msg = pre ++ toString (1 : Int) ++ post) ∧
      trace_fails (run_test_events [] 0 1 "import" ⟨"v", "d", "c", "c", "t"⟩ 1) = true :=
  (ginkgo_exit_code [] 0 1 "import" ⟨"v", "d", "c", "c", "t"⟩ 1).1 (by decide)

/-- C8: the child environment equals the parent environment overridden at
exactly the two keys ENVD_ANALYTICS (forced to false) and GIT_LATEST_TAG
(carrying the tag value); every other variable is unchanged. -/
theorem child_env_overrides (parent : String → Option String) (gitTag : String) :
    child_env parent gitTag "ENVD_ANALYTICS" = some "false" ∧
      child_env parent gitTag "GIT_LATEST_TAG" = some gitTag ∧
      ∀ k : String, k ≠ "ENVD_ANALYTICS" → k ≠ "GIT_LATEST_TAG" →
        child_env parent gitTag k = parent k := by
  refine ⟨?_, ?_, ?_⟩
  · simp [child_env]
  · simp [child_env]
  · intro k h1 h2
    simp only [child_env]
    rw [if_neg h1, if_neg h2]

/-- Witness for C8: a variable other than the two overridden keys is
passed through unchanged. -/
theorem child_env_overrides_witness :
    child_env (fun _ => some "x") "v1.0" "HOME" = some "x" :=
  (child_env_overrides (fun _ => some "x") "v1.0").2.2 "HOME" (by decide) (by decide)

/-- C9: the tree-state metadata always equals the commit metadata: both
are computed by git rev-parse HEAD, and the fourth import-time subprocess
spawns the same command as the third. -/
theorem git_tree_state_eq_commit (ex : String → String) :
    GIT_TREE_STATE ex = GIT_COMMIT ex ∧
      moduleInitEvents[3]? = some (Ev.subproc GIT_COMMIT_CMD) :=
  ⟨rfl, rfl⟩

/-- C5: for every filesystem state and every pair of glob matchers, the
output of file discovery contains no file matching the exclusion pattern
and no file ending in suite_test.go or e2e_helper.go, even when such files
are on disk and match the inclusion pattern. -/
theorem extract_files_excludes (fsFiles : List String) (mx me : String → Bool)
    (x : String) (hx : x ∈ extract_files fsFiles mx me) :
    me x = false ∧ endsWithS x "suite_test.go" = false ∧
      endsWithS x "e2e_helper.go" = false := by
  simp only [extract_files, List.mem_filter, List.mem_dedup, Bool.not_eq_true'] at hx
  obtain ⟨⟨⟨⟨hfs, hmx⟩, hcont⟩, hsuite⟩, hhelper⟩ := hx
  refine ⟨?_, hsuite, hhelper⟩
  by_contra hme
  rw [Bool.not_eq_false] at hme
  have hmem : x ∈ fsFiles.filter me := List.mem_filter.mpr ⟨hfs, hme⟩
  have : (fsFiles.filter me).contains x = true := List.elem_eq_true_of_mem hmem
  rw [this] at hcont
  exact Bool.noConfusion hcont

/-- Witness for C5: a concrete filesystem holding a docs test, a suite
file, a helper file and one real test; the real test is in the output. -/
theorem extract_files_excludes_witness :
    ("e2e/a.go" : String) ∈
      extract_files
        ["e2e/a.go", "e2e/d/docs/b.go", "e2e/d/suite_test.go", "e2e/d/e2e_helper.go"]
        (fun s => endsWithS s ".go") (fun s => strContains s "docs") ∧
      strContains "e2e/a.go" "docs" = false ∧
      endsWithS "e2e/a.go" "suite_test.go" = false ∧
      endsWithS "e2e/a.go" "e2e_helper.go" = false :=
  ⟨by decide,
    extract_files_excludes
      ["e2e/a.go", "e2e/d/docs/b.go", "e2e/d/suite_test.go", "e2e/d/e2e_helper.go"]
      (fun s => endsWithS s ".go") (fun s => strContains s "docs") "e2e/a.go" (by decide)⟩

/-- The discovered file list is free of duplicates: the Python set
difference deduplicates and the later filters preserve that. -/
lemma extract_files_nodup (fsFiles : List String) (mx me : String → Bool) :
    (extract_files fsFiles mx me).Nodup := by
  simp only [extract_files]
  exact ((List.nodup_dedup _).filter _).filter _

/-- C7: for every filesystem state, the file list main hands to the shard
selection is deduplicated and sorted (lexicographically, the order of the
String linear order). -/
theorem main_test_files_sorted_nodup (fsFiles : List String) (mx me : String → Bool) :
    (main_test_files fsFiles mx me).Nodup ∧
      (main_test_files fsFiles mx me).Sorted (fun a b : String => a ≤ b) := by
  constructor
  · exact (List.perm_insertionSort (fun a b : String => a ≤ b)
      (extract_files fsFiles mx me)).nodup_iff.mpr (extract_files_nodup fsFiles mx me)
  · exact List.sorted_insertionSort _ _

/-- C10: when ci_total is positive and ci_index is at least the length of
the file list, the selected shard is empty and the constructed runner
command (which then equals the command built from an empty focus section)
contains no occurrence of the focus-file flag, provided the flag does not
occur in that focus-free command text. -/
theorem empty_shard_no_focus_flag (files : List String) (ci_index ci_total : Int)
    (m : BuildMeta) (mode : String) (ht : 0 < ci_total)
    (hlen : (files.length : Int) ≤ ci_index)
    (hskel : strContains (build_cmd m mode ci_index "") "--focus-file" = false) :
    select_shard files ci_index ci_total = [] ∧
      build_cmd m mode ci_index (desc_regex (select_shard files ci_index ci_total)) =
        build_cmd m mode ci_index "" ∧
      strContains
        (build_cmd m mode ci_index (desc_regex (select_shard files ci_index ci_total)))
        "--focus-file" = false := by
  have hct : ((ci_total.toNat : Nat) : Int) = ci_total := Int.toNat_of_nonneg ht.le
  have hnil : select_shard files ci_index ci_total = [] := by
    rw [select_shard]
    have hfil : (List.range files.length).filter
        (fun i => ((i : Nat) : Int) % ci_total == ci_index) = [] := by
      rw [List.filter_eq_nil_iff]
      intro i hi
      rw [List.mem_range] at hi
      have hle : (i : Int) % ci_total ≤ (i : Int) := by
        rw [← hct, ← Int.natCast_mod]
        exact Int.ofNat_le.mpr (Nat.mod_le _ _)
      have hcast : (i : Int) < (files.length : Int) := Int.ofNat_lt.mpr hi
      simp only [beq_iff_eq]
      omega
    rw [hfil]
    rfl
  refine ⟨hnil, ?_, ?_⟩
  · rw [hnil]
    rfl
  · rw [hnil]
    exact hskel

set_option maxRecDepth 100000 in
/-- Witness for C10: one file, ci_index 1, ci_total 2; the command text
holds no focus-file flag. -/
theorem empty_shard_no_focus_flag_witness :
    (0 : Int) < 2 ∧ (((["a.go"] : List String).length : Nat) : Int) ≤ 1 ∧
      strContains (build_cmd ⟨"v1", "d", "c", "c", "t"⟩ "import" 1 "") "--focus-file" = false ∧
      (select_shard ["a.go"] 1 2 = [] ∧
        build_cmd ⟨"v1", "d", "c", "c", "t"⟩ "import" 1
            (desc_regex (select_shard ["a.go"] 1 2)) =
          build_cmd ⟨"v1", "d", "c", "c", "t"⟩ "import" 1 "" ∧
        strContains
          (build_cmd ⟨"v1", "d", "c", "c", "t"⟩ "import" 1
            (desc_regex (select_shard ["a.go"] 1 2)))
          "--focus-file" = false) :=
  ⟨by decide, by decide, by decide,
    empty_shard_no_focus_flag ["a.go"] 1 2 ⟨"v1", "d", "c", "c", "t"⟩ "import"
      (by decide) (by decide) (by decide)⟩

end Envd
